import Mathlib

/-!
Verification of `src/scripts/check-stars.py` (netresearch/maint).

The script polls GitHub collections (stargazers, forks, watchers, dependents)
per repository, diffs them against a persisted snapshot, queues notification
messages for newly observed members, sends at most `MAX_NOTIFICATIONS` of them
plus one overflow summary, and rewrites the snapshot.

The shallow embedding below models:
  * the per-(repo, kind) reconciliation block of `main` (lines 303-388),
    uniform across the four kinds, as `reconcileKind`;
  * `is_suspicious_empty` (lines 254-262);
  * the legacy-state migration and `.get` defaulting of `main`
    (lines 297-304, 370) as `StoredRepoState`, `migrate`, `knownOf`,
    `had_dependents_tracking`;
  * the per-repo loop body of `main` as `processRepo`, and the loop over
    repos as `runAll`;
  * the snapshot write-back shape (lines 391-398) as `savedEntry`;
  * the notification send / summary / persist tail of `main`
    (lines 400-412) as `sendSeq` / `finishRun`, where a `send` returning
    `false` stands for `notify_matrix` raising (its `raise_for_status`,
    line 283, is uncaught in `main`);
  * the inner retry loop of `github_request` (lines 33-64) and
    `get_dependents` (lines 191-251) for a single URL as `retryLoop`
    (pagination, which the retry loop sits inside, is not needed by any
    claim and is not modelled);
  * the `#dependents` landmark check of `get_dependents` (lines 205-208)
    as `get_dependents_parse`, abstracting the HTML soup to "was the
    landmark found" plus the already-extracted row names.

Records are reduced to their identity key (login / full_name), which is the
only field the diffing logic reads; enrichment fields are render-only.
-/

namespace CheckStars

/-- Cap on individual notification messages per run (line 18 of the script). -/
def MAX_NOTIFICATIONS : Nat := 20

/-- The four collection kinds tracked per repository. -/
inductive Kind
  | stars
  | forks
  | watchers
  | dependents
deriving DecidableEq

/-- Result of reconciling one (repo, kind): the identity set written back to
the state (`*_to_save`, stored as `list(set)` hence modelled as a `Finset`),
the identities queued as notifications (in fetched-record order), and the
amount added to `total_new` for this kind. -/
structure KindResult where
  toSave : Finset String
  notifs : List String
  count : Nat
deriving DecidableEq

/-- Embedding of `is_suspicious_empty` (lines 254-262): zero current entries
while the known set is non-empty. The `entity_type`/`repo_name` arguments of
the Python function are only used for logging and are omitted. -/
def is_suspicious_empty (current known : Finset String) : Bool :=
  decide (current.card = 0) && decide (0 < known.card)

/-- Embedding of the per-kind reconciliation block of `main` (e.g. the stars
block, lines 303-324; forks, watchers and dependents are structurally
identical). `fetched = none` is the fetch-failed outcome (`get_*` returned
`None`); `gate` is the notification gate (`not is_first_run`, additionally
conjoined with `had_dependents_tracking` for the dependents kind). The
`total_new` increment happens for every fetched record whose identity is new,
independent of the gate; the pending-notification append happens only when the
gate holds. -/
def reconcileKind (fetched : Option (List String)) (known : Finset String)
    (gate : Bool) : KindResult :=
  match fetched with
  | none => ⟨known, [], 0⟩
  | some records =>
    let current := records.toFinset
    if is_suspicious_empty current known then ⟨known, [], 0⟩
    else
      let newIds := current \ known
      let evs := records.filter (fun r => decide (r ∈ newIds))
      ⟨current, if gate then evs else [], evs.length⟩

/-- Embedding of the parsing stage of `get_dependents` (lines 201-241): the
HTML soup is abstracted to whether the `#dependents` structural landmark was
found (`hasLandmark`) together with the dependent full names extracted from
the `.Box-row` entries (`rows`). Without the landmark the function returns
`None` (lines 205-208) rather than an empty list. -/
def get_dependents_parse (hasLandmark : Bool) (rows : List String) :
    Option (List String) :=
  if hasLandmark then some rows else none

/-- A stored per-repo snapshot entry as read back from the state file:
either the legacy shape (a bare list of stargazer logins) or the current
per-kind mapping, in which each of the four keys may be absent (`none`).
A repo absent from the state altogether reads as
`tracked none none none none` (the `.get(repo_name, {})`, line 297). -/
inductive StoredRepoState
  | legacy (stars : List String)
  | tracked (stars forks watchers dependents : Option (List String))
deriving DecidableEq

/-- Embedding of `had_dependents_tracking` (line 299): the stored entry is a
dict that has a `dependents` key, checked before any migration. -/
def had_dependents_tracking : StoredRepoState → Bool
  | .legacy _ => false
  | .tracked _ _ _ d => d.isSome

/-- Embedding of the legacy conversion (lines 301-302) composed with the
per-kind `.get` (lines 304, 326, 349, 370): the list stored under each kind's
key after migration, `none` when the key is absent. The legacy conversion
writes `stars`, `forks`, `watchers` but no `dependents` key. -/
def migrate : StoredRepoState → Kind → Option (List String)
  | .legacy l, .stars => some l
  | .legacy _, .forks => some []
  | .legacy _, .watchers => some []
  | .legacy _, .dependents => none
  | .tracked s _ _ _, .stars => s
  | .tracked _ f _ _, .forks => f
  | .tracked _ _ w _, .watchers => w
  | .tracked _ _ _ d, .dependents => d

/-- The known identity set for a kind: `set(repo_state.get(kind, []))`. -/
def knownOf (st : StoredRepoState) (k : Kind) : Finset String :=
  ((migrate st k).getD []).toFinset

/-- A rendered notification message: either a per-event message (the
`⭐`/`🍴`/`👀`/`📦` lines, lines 317, 340, 361, 382, here reduced to the kind,
the repo and the member identity that determine the rendered text) or the
overflow summary carrying the excess count `n`, rendered as
`"+{n} more events. [See full log](FEED_URL)"` (line 408). -/
inductive Msg
  | event (k : Kind) (repo : String) (id : String)
  | summary (n : Nat)
deriving DecidableEq

/-- Whether a message is a dependents-kind event message. -/
def isDependentsMsg : Msg → Bool
  | .event .dependents _ _ => true
  | _ => false

/-- The notification gate used per kind in `main`: `not is_first_run` for
stars/forks/watchers (lines 315, 337, 359) and additionally
`had_dependents_tracking` for dependents (line 381). -/
def gateOf (isFirstRun hadDeps : Bool) : Kind → Bool
  | .dependents => !isFirstRun && hadDeps
  | _ => !isFirstRun

/-- Outcome of the per-repo loop body of `main`: the four identity sets
written into `state["repos"][repo_name]`, the pending notification messages
queued for this repo (stars, then forks, then watchers, then dependents, each
in fetched-record order), and the per-kind `total_new` increments. -/
structure RepoResult where
  saved : Kind → Finset String
  notifs : List Msg
  counts : Kind → Nat

/-- Embedding of the per-repo loop body of `main` (lines 295-398): reconcile
each kind with its gate and collect saves, pending notifications, counts. -/
def processRepo (stored : StoredRepoState)
    (fetch : Kind → Option (List String)) (isFirstRun : Bool)
    (repo : String) : RepoResult :=
  let hadDeps := had_dependents_tracking stored
  let res : Kind → KindResult := fun k =>
    reconcileKind (fetch k) (knownOf stored k) (gateOf isFirstRun hadDeps k)
  { saved := fun k => (res k).toSave
    notifs := ((res .stars).notifs.map (Msg.event .stars repo))
      ++ ((res .forks).notifs.map (Msg.event .forks repo))
      ++ ((res .watchers).notifs.map (Msg.event .watchers repo))
      ++ ((res .dependents).notifs.map (Msg.event .dependents repo))
    counts := fun k => (res k).count }

/-- Embedding of the snapshot write-back for one repo (lines 391-398):
`main` always stores a mapping with exactly the four keys, each holding
`list(<saved set>)`. Python's `list(set)` iteration order is unspecified, so
the saved list is determinized here by sorting; only its set of elements is
meaningful. -/
def savedEntry (r : RepoResult) : StoredRepoState :=
  .tracked (some ((r.saved .stars).sort (· ≤ ·)))
    (some ((r.saved .forks).sort (· ≤ ·)))
    (some ((r.saved .watchers).sort (· ≤ ·)))
    (some ((r.saved .dependents).sort (· ≤ ·)))

/-- Embedding of the repo loop of `main` (lines 295-398): pending
notifications concatenated in source-listing order, and the new snapshot
entries. -/
def runAll (repos : List (String × StoredRepoState))
    (fetch : String → Kind → Option (List String)) (isFirstRun : Bool) :
    List Msg × List (String × StoredRepoState) :=
  (repos.flatMap fun p => (processRepo p.2 (fetch p.1) isFirstRun p.1).notifs,
   repos.map fun p =>
     (p.1, savedEntry (processRepo p.2 (fetch p.1) isFirstRun p.1)))

/-- Sequential sends of a message list (the `for msg in ...: notify_matrix(msg)`
loop, lines 401-403). `send m = false` stands for `notify_matrix` raising
(uncaught in `main`). Returns the attempted messages in order — stopping right
after the first failing one — and whether all succeeded. -/
def sendSeq (send : Msg → Bool) : List Msg → List Msg × Bool
  | [] => ([], true)
  | m :: ms =>
    if send m then
      let r := sendSeq send ms
      (m :: r.1, r.2)
    else ([m], false)

/-- Outcome of the send/summary/persist tail of `main`: the messages whose
send was attempted, whether `save_state` was reached, and whether an
exception propagated out of `main`. -/
structure FinishResult where
  attempted : List Msg
  persisted : Bool
  raised : Bool
deriving DecidableEq

/-- Embedding of the tail of `main` (lines 400-412): send the first
`MAX_NOTIFICATIONS` pending messages, then — when
`len(pending) - MAX_NOTIFICATIONS > 0` (a Python `int`, hence the `Int`
subtraction) — one summary message, then `save_state`. Any send raising
aborts the run before `save_state`. -/
def finishRun (send : Msg → Bool) (pending : List Msg) : FinishResult :=
  let r1 := sendSeq send (pending.take MAX_NOTIFICATIONS)
  if r1.2 then
    let remaining : Int := (pending.length : Int) - (MAX_NOTIFICATIONS : Int)
    if 0 < remaining then
      let s := Msg.summary remaining.toNat
      if send s then ⟨r1.1 ++ [s], true, false⟩
      else ⟨r1.1 ++ [s], false, true⟩
    else ⟨r1.1, true, false⟩
  else ⟨r1.1, false, true⟩

/-- An HTTP response as the retry loops see it: the status code, the
optional parsed `Retry-After` header, and the parsed payload records (only
read on success). -/
structure HttpResp where
  status : Nat
  retryAfter : Option Nat
  records : List String
deriving DecidableEq

/-- The transient statuses retried by both loops:
`response.status_code in (429, 502, 503, 504)` (lines 39, 194). -/
def isTransientStatus (s : Nat) : Bool :=
  decide (s = 429) || decide (s = 502) || decide (s = 503) || decide (s = 504)

/-- The sleep before retrying a transient response:
`int(response.headers.get("Retry-After", 2 ** attempt))` (lines 40, 195) —
the header value when present, else `2 ** attempt`. -/
def codeRetrySleep (retryAfter : Option Nat) (attempt : Nat) : Nat :=
  retryAfter.getD (2 ^ attempt)

/-- Modelled from the spec: the sleep the spec prescribes for a transient
response, `max(server-specified retry-after, 2^attempt seconds)`; defined
only to be compared with `codeRetrySleep`. -/
def specRetrySleep (retryAfter : Option Nat) (attempt : Nat) : Nat :=
  max (retryAfter.getD (2 ^ attempt)) (2 ^ attempt)

/-- Outcome of a fetch attempt sequence: parsed records, or the FetchFailed
outcome (an exception escaping the loop, or the for-else raise / `return
None` after exhausting retries). -/
inductive FetchOutcome
  | ok (records : List String)
  | failed
deriving DecidableEq

/-- Embedding of the inner retry loop of `github_request` (lines 35-64) for a
single URL, shared with `get_dependents` (lines 191-251). `resp i` is the
response obtained on attempt `i` (`none` is a network-level
`RequestException`); `remaining` counts the attempts the `for attempt in
range(max_retries)` loop still has. Returns the sleeps performed, in order,
and the outcome. A transient status sleeps `codeRetrySleep` and continues
(even on the last attempt, after which the loop exhausts and raises); a
non-2xx status makes `raise_for_status` throw, which the
`except RequestException` arm catches — retrying with a pure `2 ** attempt`
backoff when attempts remain and raising otherwise, exactly as a
network-level exception does. Pagination (the outer `while url` loop), which
no claim touches, is not modelled. -/
def retryLoop (resp : Nat → Option HttpResp) : Nat → Nat → List Nat × FetchOutcome
  | _, 0 => ([], .failed)
  | attempt, r + 1 =>
    match resp attempt with
    | some h =>
      if isTransientStatus h.status then
        let rest := retryLoop resp (attempt + 1) r
        (codeRetrySleep h.retryAfter attempt :: rest.1, rest.2)
      else if 400 ≤ h.status then
        if r = 0 then ([], .failed)
        else
          let rest := retryLoop resp (attempt + 1) r
          (2 ^ attempt :: rest.1, rest.2)
      else ([], .ok h.records)
    | none =>
      if r = 0 then ([], .failed)
      else
        let rest := retryLoop resp (attempt + 1) r
        (2 ^ attempt :: rest.1, rest.2)

end CheckStars

namespace CheckStars

/-- The notification gate never changes what is saved. -/
theorem reconcileKind_toSave_gate (fetched : Option (List String))
    (known : Finset String) (g g' : Bool) :
    (reconcileKind fetched known g).toSave
      = (reconcileKind fetched known g').toSave := by
  cases fetched with
  | none => rfl
  | some records =>
    by_cases h : is_suspicious_empty records.toFinset known <;>
      simp [reconcileKind, h]

/-- The notification gate never changes the event count. -/
theorem reconcileKind_count_gate (fetched : Option (List String))
    (known : Finset String) (g g' : Bool) :
    (reconcileKind fetched known g).count
      = (reconcileKind fetched known g').count := by
  cases fetched with
  | none => rfl
  | some records =>
    by_cases h : is_suspicious_empty records.toFinset known <;>
      simp [reconcileKind, h]

/-- With the gate off, no notifications are queued. -/
theorem reconcileKind_notifs_gate_false (fetched : Option (List String))
    (known : Finset String) :
    (reconcileKind fetched known false).notifs = [] := by
  cases fetched with
  | none => rfl
  | some records =>
    by_cases h : is_suspicious_empty records.toFinset known <;>
      simp [reconcileKind, h]

/-- C1: when the fetch for a (subject, kind) fails (the `get_*` helper
returned `None`, which includes the dependents page lacking the `#dependents`
landmark), the reconciler outputs the previously known set unchanged, emits
zero events and zero count, and — being a total function on the `Option`
input — propagates no exception; the failure is never turned into an empty
collection. -/
theorem fetchFailed_preserves_state (known : Finset String) (gate : Bool)
    (rows : List String) :
    reconcileKind none known gate = ⟨known, [], 0⟩ ∧
    get_dependents_parse false rows = none ∧
    reconcileKind (get_dependents_parse false rows) known gate
      = ⟨known, [], 0⟩ :=
  ⟨rfl, rfl, rfl⟩

/-- C2: the anti-flap guard — when the fetched identity set is empty but the
known set is non-empty, the reconciler outputs the known set unchanged and
emits zero events. -/
theorem antiflap_guard (records : List String) (known : Finset String)
    (gate : Bool) (hC : records.toFinset = ∅) (hK : known ≠ ∅) :
    reconcileKind (some records) known gate = ⟨known, [], 0⟩ := by
  have hcard : 0 < known.card :=
    Finset.card_pos.mpr (Finset.nonempty_iff_ne_empty.mpr hK)
  simp [reconcileKind, is_suspicious_empty, hC, hcard]

/-- Witness for C2 at the spec's concrete instance `K = {"a","b"}`, `C = ∅`. -/
theorem antiflap_guard_witness :
    reconcileKind (some []) ({"a", "b"} : Finset String) true
      = ⟨{"a", "b"}, [], 0⟩ :=
  antiflap_guard [] {"a", "b"} true (by decide) (by decide)

/-- The set of identities of the queued events equals `C − K` when the guard
does not fire. -/
theorem reconcileKind_notifs_toFinset (records : List String)
    (known : Finset String)
    (hguard : is_suspicious_empty records.toFinset known = false) :
    (reconcileKind (some records) known true).notifs.toFinset
      = records.toFinset \ known := by
  ext a
  simp [reconcileKind, hguard, List.mem_filter]

/-- C5: with a successful fetch and the guard not firing, the next state is
exactly `C = toFinset records`, the queued events' identity set is exactly
`C − K`, and both are invariant under permuting the fetched records. -/
theorem monotonic_convergence (records records' : List String)
    (known : Finset String) (hperm : records.Perm records')
    (hguard : is_suspicious_empty records.toFinset known = false) :
    (reconcileKind (some records) known true).toSave = records.toFinset ∧
    (reconcileKind (some records) known true).notifs.toFinset
      = records.toFinset \ known ∧
    (reconcileKind (some records') known true).toSave
      = (reconcileKind (some records) known true).toSave ∧
    (reconcileKind (some records') known true).notifs.toFinset
      = (reconcileKind (some records) known true).notifs.toFinset := by
  have hfs : records'.toFinset = records.toFinset :=
    (List.toFinset_eq_of_perm _ _ hperm).symm
  have hguard' : is_suspicious_empty records'.toFinset known = false := by
    rw [hfs]; exact hguard
  refine ⟨?_, reconcileKind_notifs_toFinset records known hguard, ?_, ?_⟩
  · simp [reconcileKind, hguard]
  · simp [reconcileKind, hguard, hguard', hfs]
  · rw [reconcileKind_notifs_toFinset records known hguard,
      reconcileKind_notifs_toFinset records' known hguard', hfs]

/-- Witness for C5 at `records = ["a","b"]`, the permutation `["b","a"]`,
`K = {"a"}`. -/
theorem monotonic_convergence_witness :
    (reconcileKind (some ["a", "b"]) ({"a"} : Finset String) true).toSave
      = (["a", "b"] : List String).toFinset ∧
    (reconcileKind (some ["a", "b"]) ({"a"} : Finset String) true).notifs.toFinset
      = (["a", "b"] : List String).toFinset \ {"a"} ∧
    (reconcileKind (some ["b", "a"]) ({"a"} : Finset String) true).toSave
      = (reconcileKind (some ["a", "b"]) ({"a"} : Finset String) true).toSave ∧
    (reconcileKind (some ["b", "a"]) ({"a"} : Finset String) true).notifs.toFinset
      = (reconcileKind (some ["a", "b"]) ({"a"} : Finset String) true).notifs.toFinset :=
  monotonic_convergence ["a", "b"] ["b", "a"] {"a"} (by decide) (by decide)

/-- If every message in the list is delivered, the send loop attempts all of
them and reports success. -/
theorem sendSeq_all_true (send : Msg → Bool) (l : List Msg)
    (h : ∀ m ∈ l, send m = true) : sendSeq send l = (l, true) := by
  induction l with
  | nil => rfl
  | cons m ms ih =>
    have hm : send m = true := h m (List.mem_cons_self m ms)
    have hms : sendSeq send ms = (ms, true) :=
      ih fun x hx => h x (List.mem_cons_of_mem m hx)
    simp [sendSeq, hm, hms]

/-- If the send loop reports success, it attempted the whole list and every
send succeeded. -/
theorem sendSeq_ok (send : Msg → Bool) (l : List Msg)
    (h : (sendSeq send l).2 = true) :
    (sendSeq send l).1 = l ∧ ∀ m ∈ l, send m = true := by
  induction l with
  | nil => exact ⟨rfl, by simp⟩
  | cons m ms ih =>
    by_cases hm : send m = true
    · have h' : (sendSeq send ms).2 = true := by
        simpa [sendSeq, hm] using h
      obtain ⟨h1, h2⟩ := ih h'
      refine ⟨by simp [sendSeq, hm, h1], ?_⟩
      intro x hx
      rcases List.mem_cons.mp hx with hx | hx
      · rw [hx]; exact hm
      · exact h2 x hx
    · simp [sendSeq, hm] at h

/-- If the send loop reports failure, some attempted send failed. -/
theorem sendSeq_fail (send : Msg → Bool) (l : List Msg)
    (h : (sendSeq send l).2 = false) :
    ∃ m ∈ (sendSeq send l).1, send m = false := by
  induction l with
  | nil => simp [sendSeq] at h
  | cons m ms ih =>
    by_cases hm : send m = true
    · have h' : (sendSeq send ms).2 = false := by
        simpa [sendSeq, hm] using h
      obtain ⟨x, hx, hxf⟩ := ih h'
      exact ⟨x, by simp [sendSeq, hm, hx], hxf⟩
    · refine ⟨m, by simp [sendSeq, hm], by simpa using hm⟩

/-- C3 (as stated) is refuted: with one pending message whose delivery fails
(`notify_matrix` raising), the run raises and `save_state` is never reached —
the snapshot is not persisted. -/
theorem notification_failure_cex :
    (finishRun (fun _ => false) [Msg.event .stars "r" "u"]).persisted = false ∧
    (finishRun (fun _ => false) [Msg.event .stars "r" "u"]).raised = true := by
  decide

/-- C3 amended: a notification delivery failure propagates and aborts the run
before snapshot persistence — the snapshot is persisted exactly when every
attempted send succeeded, and the run raises exactly when it did not
persist. -/
theorem notification_failure_aborts (send : Msg → Bool) (pending : List Msg) :
    ((finishRun send pending).persisted = true ↔
      ∀ m ∈ (finishRun send pending).attempted, send m = true) ∧
    (finishRun send pending).raised = !(finishRun send pending).persisted := by
  by_cases hs : (sendSeq send (pending.take MAX_NOTIFICATIONS)).2 = true
  · obtain ⟨h1, h2⟩ := sendSeq_ok send _ hs
    by_cases hrem : (0 : Int) <
        (pending.length : Int) - (MAX_NOTIFICATIONS : Int)
    · by_cases hsum : send (Msg.summary
          (pending.length - MAX_NOTIFICATIONS)) = true
      · have hfr : finishRun send pending
            = ⟨(sendSeq send (pending.take MAX_NOTIFICATIONS)).1 ++
                [Msg.summary (pending.length - MAX_NOTIFICATIONS)],
               true, false⟩ := by
          simp [finishRun, hs, hrem, hsum]
        rw [hfr]
        refine ⟨iff_of_true rfl ?_, rfl⟩
        intro m hm
        rcases List.mem_append.mp hm with hm | hm
        · exact h2 m (h1 ▸ hm)
        · rw [List.mem_singleton.mp hm]; exact hsum
      · have hfr : finishRun send pending
            = ⟨(sendSeq send (pending.take MAX_NOTIFICATIONS)).1 ++
                [Msg.summary (pending.length - MAX_NOTIFICATIONS)],
               false, true⟩ := by
          simp [finishRun, hs, hrem, hsum]
        rw [hfr]
        refine ⟨iff_of_false (by simp) ?_, rfl⟩
        intro hall
        exact absurd (hall _ (by simp)) hsum
    · have hfr : finishRun send pending
          = ⟨(sendSeq send (pending.take MAX_NOTIFICATIONS)).1,
             true, false⟩ := by
        simp [finishRun, hs, hrem]
      rw [hfr]
      exact ⟨iff_of_true rfl (fun m hm => h2 m (h1 ▸ hm)), rfl⟩
  · have hs' : (sendSeq send (pending.take MAX_NOTIFICATIONS)).2 = false := by
      simpa using hs
    obtain ⟨m, hm, hmf⟩ := sendSeq_fail send _ hs'
    have hfr : finishRun send pending
        = ⟨(sendSeq send (pending.take MAX_NOTIFICATIONS)).1,
           false, true⟩ := by
      simp [finishRun, hs']
    rw [hfr]
    refine ⟨iff_of_false (by simp) ?_, rfl⟩
    intro hall
    exact absurd (hall m hm) (by simp [hmf])

/-- C7: when deliveries succeed, the run sends exactly the first
`MAX_NOTIFICATIONS` pending messages in order, followed by exactly one
summary carrying the excess count when there is an excess and by nothing
otherwise; when the pending count is within the cap, exactly the pending
messages are sent. In all cases the snapshot is then persisted. -/
theorem notification_cap (send : Msg → Bool) (pending : List Msg)
    (hsend : ∀ m, send m = true) :
    (finishRun send pending).attempted
      = pending.take MAX_NOTIFICATIONS ++
        (if MAX_NOTIFICATIONS < pending.length
         then [Msg.summary (pending.length - MAX_NOTIFICATIONS)] else []) ∧
    (finishRun send pending).persisted = true ∧
    (pending.length ≤ MAX_NOTIFICATIONS →
      (finishRun send pending).attempted = pending) := by
  have h1 : sendSeq send (pending.take MAX_NOTIFICATIONS)
      = (pending.take MAX_NOTIFICATIONS, true) :=
    sendSeq_all_true send _ (fun m _ => hsend m)
  by_cases hlen : MAX_NOTIFICATIONS < pending.length
  · have hrem : (0 : Int) <
        (pending.length : Int) - (MAX_NOTIFICATIONS : Int) := by omega
    have htn : ((pending.length : Int) - (MAX_NOTIFICATIONS : Int)).toNat
        = pending.length - MAX_NOTIFICATIONS := by omega
    have hfr : finishRun send pending
        = ⟨pending.take MAX_NOTIFICATIONS ++
            [Msg.summary (pending.length - MAX_NOTIFICATIONS)],
           true, false⟩ := by
      simp [finishRun, h1, hrem, hsend, htn]
    refine ⟨by simp [hfr, hlen], by simp [hfr], fun hle => absurd hlen (by omega)⟩
  · have hrem : ¬ ((0 : Int) <
        (pending.length : Int) - (MAX_NOTIFICATIONS : Int)) := by omega
    have htake : pending.take MAX_NOTIFICATIONS = pending :=
      List.take_of_length_le (by omega)
    rw [htake] at h1
    have hfr : finishRun send pending = ⟨pending, true, false⟩ := by
      simp [finishRun, htake, h1, hrem]
    exact ⟨by simp [hfr, hlen, htake], by simp [hfr], fun _ => by simp [hfr]⟩

/-- Witness for C7 with 25 pending messages and all deliveries succeeding:
exactly the first 20 are sent, then one summary stating the excess 5. -/
theorem notification_cap_witness :
    (finishRun (fun _ => true)
        (List.replicate 25 (Msg.event .stars "r" "u"))).attempted
      = List.replicate 20 (Msg.event .stars "r" "u") ++ [Msg.summary 5] ∧
    (finishRun (fun _ => true)
        (List.replicate 25 (Msg.event .stars "r" "u"))).persisted = true := by
  have h := notification_cap (fun _ => true)
    (List.replicate 25 (Msg.event .stars "r" "u")) (fun m => rfl)
  refine ⟨?_, h.2.1⟩
  rw [h.1]
  decide

/-- On a bootstrap run every kind's notification gate is off, so a repo
queues no notifications. -/
theorem processRepo_bootstrap_notifs (stored : StoredRepoState)
    (fetch : Kind → Option (List String)) (repo : String) :
    (processRepo stored fetch true repo).notifs = [] := by
  have h : ∀ k, gateOf true (had_dependents_tracking stored) k = false := by
    intro k; cases k <;> simp [gateOf]
  simp [processRepo, h, reconcileKind_notifs_gate_false]

/-- On a bootstrap run the whole pending-notification list is empty. -/
theorem runAll_bootstrap_pending (repos : List (String × StoredRepoState))
    (fetchAll : String → Kind → Option (List String)) :
    (runAll repos fetchAll true).1 = [] := by
  simp [runAll, processRepo_bootstrap_notifs]

/-- With nothing pending, the run sends nothing, raises nothing, and
persists. -/
theorem finishRun_nil (send : Msg → Bool) :
    finishRun send [] = ⟨[], true, false⟩ := by
  norm_num [finishRun, sendSeq, MAX_NOTIFICATIONS]

/-- C6: on a bootstrap run (no prior run timestamp) events are counted and
the snapshot updated exactly as on a normal run, but no notification is
queued, so nothing is sent; at the spec's concrete instance `K = ∅`,
`C = ["a","b","c"]` the next state is `{"a","b","c"}` with event count 3 and
no queued notification. -/
theorem bootstrap_suppresses (stored : StoredRepoState)
    (fetch : Kind → Option (List String)) (repo : String)
    (repos : List (String × StoredRepoState))
    (fetchAll : String → Kind → Option (List String)) (send : Msg → Bool) :
    (processRepo stored fetch true repo).notifs = [] ∧
    (∀ k, (processRepo stored fetch true repo).counts k
        = (processRepo stored fetch false repo).counts k) ∧
    (∀ k, (processRepo stored fetch true repo).saved k
        = (processRepo stored fetch false repo).saved k) ∧
    (runAll repos fetchAll true).1 = [] ∧
    finishRun send (runAll repos fetchAll true).1 = ⟨[], true, false⟩ ∧
    reconcileKind (some ["a", "b", "c"]) ∅ false
      = ⟨{"a", "b", "c"}, [], 3⟩ := by
  refine ⟨processRepo_bootstrap_notifs stored fetch repo, ?_, ?_,
    runAll_bootstrap_pending repos fetchAll, ?_, by decide⟩
  · intro k
    simp only [processRepo]
    exact reconcileKind_count_gate _ _ _ _
  · intro k
    simp only [processRepo]
    exact reconcileKind_toSave_gate _ _ _ _
  · rw [runAll_bootstrap_pending repos fetchAll]
    exact finishRun_nil send

/-- C8: with no prior dependents tracking for a repo, even on a non-bootstrap
run no dependents notification is queued, while the dependents event count
and the saved dependents set are exactly those of an ungated
reconciliation. -/
theorem dependents_tracking_gate (stored : StoredRepoState)
    (fetch : Kind → Option (List String)) (repo : String)
    (h : had_dependents_tracking stored = false) :
    (processRepo stored fetch false repo).notifs.all
        (fun m => !(isDependentsMsg m)) = true ∧
    (processRepo stored fetch false repo).counts .dependents
      = (reconcileKind (fetch .dependents)
          (knownOf stored .dependents) true).count ∧
    (processRepo stored fetch false repo).saved .dependents
      = (reconcileKind (fetch .dependents)
          (knownOf stored .dependents) true).toSave := by
  refine ⟨?_, ?_, ?_⟩
  · have hdep : gateOf false (had_dependents_tracking stored) .dependents
        = false := by simp [gateOf, h]
    have hseg : ∀ (k : Kind) (l : List String), k ≠ .dependents →
        (l.map (Msg.event k repo)).all (fun m => !(isDependentsMsg m))
          = true := by
      intro k l hk
      rw [List.all_eq_true]
      intro m hm
      obtain ⟨x, hx1, hx2⟩ := List.mem_map.mp hm
      subst hx2
      cases k with
      | dependents => exact absurd rfl hk
      | stars => rfl
      | forks => rfl
      | watchers => rfl
    simp only [processRepo, hdep, reconcileKind_notifs_gate_false,
      List.map_nil, List.append_nil, List.all_append, Bool.and_eq_true]
    exact ⟨⟨hseg .stars _ (by decide), hseg .forks _ (by decide)⟩,
      hseg .watchers _ (by decide)⟩
  · simp only [processRepo]
    exact reconcileKind_count_gate _ _ _ _
  · simp only [processRepo]
    exact reconcileKind_toSave_gate _ _ _ _

/-- Witness for C8: a legacy entry (no dependents key) with a successful
dependents fetch on a non-bootstrap run — the dependent is counted
ungated. -/
theorem dependents_tracking_gate_witness :
    had_dependents_tracking (.legacy ["x"]) = false ∧
    (processRepo (.legacy ["x"]) (fun _ => some ["y"]) false "r").notifs.all
        (fun m => !(isDependentsMsg m)) = true ∧
    (processRepo (.legacy ["x"]) (fun _ => some ["y"]) false "r").counts
        .dependents
      = (reconcileKind (some ["y"])
          (knownOf (.legacy ["x"]) .dependents) true).count :=
  ⟨rfl, (dependents_tracking_gate (.legacy ["x"]) (fun _ => some ["y"]) "r"
      rfl).1,
    (dependents_tracking_gate (.legacy ["x"]) (fun _ => some ["y"]) "r"
      rfl).2.1⟩

/-- C10: whatever shape a repo's entry had before the run, the entry written
back is always the four-key per-kind mapping — never the legacy bare list —
each kind holding a list whose element set is exactly the reconciled save;
re-reading it finds the dependents key present, so the legacy migration can
fire at most once per repo. -/
theorem saved_state_shape (stored : StoredRepoState)
    (fetch : Kind → Option (List String)) (isFirstRun : Bool)
    (repo : String) :
    (∀ l, savedEntry (processRepo stored fetch isFirstRun repo)
        ≠ .legacy l) ∧
    (∀ k, ∃ ids : List String,
        migrate (savedEntry (processRepo stored fetch isFirstRun repo)) k
          = some ids ∧
        ids.toFinset = (processRepo stored fetch isFirstRun repo).saved k) ∧
    had_dependents_tracking
        (savedEntry (processRepo stored fetch isFirstRun repo)) = true := by
  refine ⟨fun l => by simp [savedEntry], fun k => ?_, rfl⟩
  cases k with
  | stars =>
    exact ⟨_, rfl, Finset.sort_toFinset _ _⟩
  | forks =>
    exact ⟨_, rfl, Finset.sort_toFinset _ _⟩
  | watchers =>
    exact ⟨_, rfl, Finset.sort_toFinset _ _⟩
  | dependents =>
    exact ⟨_, rfl, Finset.sort_toFinset _ _⟩

/-- When every attempt yields a transient status, the loop sleeps
`codeRetrySleep` once per attempt (indices counted from `a`) and then
fails. -/
theorem retryLoop_transient (st : Nat → Nat) (ra : Nat → Option Nat)
    (h : ∀ i, isTransientStatus (st i) = true) :
    ∀ r a, retryLoop (fun i => some ⟨st i, ra i, []⟩) a r
      = (((List.range r).map fun j => codeRetrySleep (ra (a + j)) (a + j)),
         .failed) := by
  intro r
  induction r with
  | zero => intro a; rfl
  | succ n ih =>
    intro a
    rw [List.range_succ_eq_map, List.map_cons, List.map_map]
    have heq : ((fun j => codeRetrySleep (ra (a + j)) (a + j)) ∘ Nat.succ)
        = fun j => codeRetrySleep (ra (a + 1 + j)) (a + 1 + j) := by
      funext j
      have hx : a + Nat.succ j = a + 1 + j := by omega
      simp only [Function.comp_apply, hx]
    rw [heq]
    simp only [retryLoop, h a, if_true]
    rw [ih (a + 1)]
    simp

/-- The retry loop never performs more sleeps than it has attempts left. -/
theorem retryLoop_length_le (resp : Nat → Option HttpResp) :
    ∀ r a, ((retryLoop resp a r).1).length ≤ r := by
  intro r
  induction r with
  | zero => intro a; simp [retryLoop]
  | succ n ih =>
    intro a
    cases hr : resp a with
    | some h =>
      by_cases ht : isTransientStatus h.status = true
      · simp only [retryLoop, hr, ht, if_true, List.length_cons]
        have := ih (a + 1)
        omega
      · by_cases h4 : 400 ≤ h.status
        · by_cases hn : n = 0
          · simp [retryLoop, hr, ht, h4, hn]
          · simp only [retryLoop, hr, ht, h4, hn, if_true, if_false,
              List.length_cons]
            have := ih (a + 1)
            simp [ht, h4, hn]
            omega
        · simp [retryLoop, hr, ht, h4]
    | none =>
      by_cases hn : n = 0
      · simp [retryLoop, hr, hn]
      · simp only [retryLoop, hr, hn, List.length_cons]
        have := ih (a + 1)
        simp [hn]
        omega

/-- C4 (as stated) is refuted: on a 429 response carrying `Retry-After: 0`
the code sleeps `0` seconds at every attempt — the header value alone — while
the claim's `max(retry-after, 2^attempt)` would demand `1` second already at
attempt 0. -/
theorem retry_sleep_cex :
    (retryLoop (fun _ => some ⟨429, some 0, []⟩) 0 3).1 = [0, 0, 0] ∧
    codeRetrySleep (some 0) 0 = 0 ∧
    specRetrySleep (some 0) 0 = 1 := by
  decide

/-- C4 amended: for every retry of a request that returned 429/502/503/504
the fetcher sleeps the server-specified retry-after when present and
`2^attempt` seconds otherwise (`codeRetrySleep`), for at most the maximum
retry count of attempts. -/
theorem retry_backoff (st : Nat → Nat) (ra : Nat → Option Nat) (r : Nat)
    (h : ∀ i, isTransientStatus (st i) = true) :
    retryLoop (fun i => some ⟨st i, ra i, []⟩) 0 r
      = (((List.range r).map fun j => codeRetrySleep (ra j) j), .failed) ∧
    ∀ (resp : Nat → Option HttpResp) (a n : Nat),
      ((retryLoop resp a n).1).length ≤ n := by
  refine ⟨?_, fun resp a n => retryLoop_length_le resp n a⟩
  have hgen := retryLoop_transient st ra h r 0
  simpa using hgen

/-- Witness for C4's amended claim: three straight 502s with
`Retry-After: 7` sleep 7 seconds each (not `max(7, 2^attempt)`) and end in
the FetchFailed outcome. -/
theorem retry_backoff_witness :
    retryLoop (fun _ => some ⟨502, some 7, []⟩) 0 3 = ([7, 7, 7], .failed) := by
  rw [(retry_backoff (fun _ => 502) (fun _ => some 7) 3 (fun _ => rfl)).1]
  decide

/-- C9: a legacy-shaped entry (bare list of identities) is read as the
stargazers known set with empty known sets for forks, watchers and
dependents — the load is a total function, so nothing is raised — its
dependents-tracking flag is `false`, and an empty known set can never trigger
the anti-flap guard. -/
theorem legacy_migration (l : List String) (current : Finset String) :
    knownOf (.legacy l) .stars = l.toFinset ∧
    knownOf (.legacy l) .forks = ∅ ∧
    knownOf (.legacy l) .watchers = ∅ ∧
    knownOf (.legacy l) .dependents = ∅ ∧
    had_dependents_tracking (.legacy l) = false ∧
    is_suspicious_empty current ∅ = false := by
  refine ⟨rfl, rfl, rfl, rfl, rfl, ?_⟩
  simp [is_suspicious_empty]

end CheckStars
